import Mathlib

/-!
Verification of the warden-protocol/agent-kit task-lifecycle engine.

This file gives a shallow embedding of the A2A protocol types
(`src/a2a/types.ts`), the in-memory task store and the JSON-RPC request
handlers of the A2A server (`src/a2a/server.ts`), the LangGraph adapter
store and input normalization (`src/langgraph/server.ts`), and the
dual-protocol `AgentServer` (`src/langgraph/dual-server.ts`), and proves
or refutes the specification claims about them.

Conventions of the embedding:
* JavaScript `Map` objects are association lists with JS `Map.set`
  semantics (in-place update of an existing key, append otherwise).
* Nondeterministic inputs of the code (`crypto.randomUUID()`,
  `new Date().toISOString()`) are explicit parameters (`uuid`, `now`).
* An async generator handler is its (finite) list of yielded events,
  together with a flag telling whether it throws after those yields; a
  promise handler is its returned message (`none` models rejection).
* Handlers that call `updateTaskState` are instrumented to also return
  the ordered list of `(state, message?)` arguments of those calls, so
  that temporal claims about intermediate transitions can be stated.
-/

namespace AgentKit

/-- JSON-like runtime values, used for the open `Record<string, unknown>`
maps of the TypeScript source (part metadata, run inputs, wire records). -/
inductive JVal where
  | jnull
  | jbool (b : Bool)
  | jnum (n : Int)
  | jstr (s : String)
  | jarr (xs : List JVal)
  | jobj (fields : List (String × JVal))

/-- First-occurrence field lookup on a record, `r[k]` for an object. -/
def lookupField : List (String × JVal) → String → Option JVal
  | [], _ => none
  | p :: rest, k => if p.1 = k then some p.2 else lookupField rest k

/-- Property access `v[k]` on an arbitrary JS value: objects look the key
up, primitives and arrays yield `undefined` (`none`).  Call sites that
would throw on `null` handle `jnull` before calling this. -/
def jsField (v : JVal) (k : String) : Option JVal :=
  match v with
  | .jobj fields => lookupField fields k
  | _ => none

/-- Removal of every binding of a key, the effect of destructuring
`const \x7b k, ...rest \x7d = r` on the remaining record. -/
def eraseField : List (String × JVal) → String → List (String × JVal)
  | [], _ => []
  | p :: rest, k => if p.1 = k then eraseField rest k else p :: eraseField rest k

/-- JS truthiness of a value. -/
def jsTruthy : JVal → Bool
  | .jnull => false
  | .jbool b => b
  | .jnum n => n ≠ 0
  | .jstr s => s ≠ ""
  | .jarr _ => true
  | .jobj _ => true

mutual

/-- JS `String(v)` conversion, used by `Array.prototype.join`. -/
def jsToString : JVal → String
  | .jnull => "null"
  | .jbool b => if b then "true" else "false"
  | .jnum n => toString n
  | .jstr s => s
  | .jarr xs => String.intercalate "," (jsToStringArr xs)
  | .jobj _ => "[object Object]"

/-- Array elements under `join`: `null` renders as the empty string. -/
def jsToStringArr : List JVal → List String
  | [] => []
  | .jnull :: rest => "" :: jsToStringArr rest
  | v :: rest => jsToString v :: jsToStringArr rest

end

/-- Escape of one character inside a JSON string literal. -/
def jsonEscapeChar (c : Char) : String :=
  if c = '"' then "\\\""
  else if c = '\\' then "\\\\"
  else if c = '\n' then "\\n"
  else if c = '\t' then "\\t"
  else if c = '\r' then "\\r"
  else if c.toNat < 32 then "\\u00" ++ (Nat.toDigits 16 c.toNat).asString
  else String.singleton c

/-- JSON string literal with quotes. -/
def jsonQuote (s : String) : String :=
  "\"" ++ String.join (s.data.map jsonEscapeChar) ++ "\""

mutual

/-- `JSON.stringify` on our value type. -/
def jsonStringify : JVal → String
  | .jnull => "null"
  | .jbool b => if b then "true" else "false"
  | .jnum n => toString n
  | .jstr s => jsonQuote s
  | .jarr xs => "[" ++ String.intercalate "," (jsonStringifyArr xs) ++ "]"
  | .jobj fields =>
      "\x7b" ++ String.intercalate "," (jsonStringifyFields fields) ++ "\x7d"

def jsonStringifyArr : List JVal → List String
  | [] => []
  | v :: rest => jsonStringify v :: jsonStringifyArr rest

def jsonStringifyFields : List (String × JVal) → List String
  | [] => []
  | (k, v) :: rest => (jsonQuote k ++ ":" ++ jsonStringify v) :: jsonStringifyFields rest

end

/-! ## A2A protocol types (`src/a2a/types.ts`) -/

/-- Lifecycle state of a task (`TaskState`). -/
inductive TaskState where
  | submitted
  | working
  | input_required
  | completed
  | failed
  | cancelled
  | rejected
  | auth_required
deriving DecidableEq, Repr

/-- `TERMINAL_TASK_STATES` from `types.ts`. -/
def TERMINAL_TASK_STATES : List TaskState :=
  [.completed, .failed, .cancelled, .rejected]

/-- `VALID_TASK_TRANSITIONS` from `types.ts`: the record keyed by the four
non-terminal states; absent keys give `undefined` (`none`). -/
def VALID_TASK_TRANSITIONS : TaskState → Option (List TaskState)
  | .submitted => some [.working, .cancelled, .rejected]
  | .working => some [.completed, .failed, .cancelled, .input_required]
  | .input_required => some [.working, .cancelled]
  | .auth_required => some [.working, .cancelled]
  | _ => none

/-- `canTransitionTask` from `types.ts`:
`VALID_TASK_TRANSITIONS[from]?.includes(to) ?? false`. -/
def canTransitionTask (src dst : TaskState) : Bool :=
  match VALID_TASK_TRANSITIONS src with
  | some allowed => allowed.contains dst
  | none => false

/-- The file reference inside a `FilePart`. -/
structure FileRef where
  url : Option String := none
  base64 : Option String := none
  mimeType : Option String := none
  name : Option String := none

/-- The artifact payload inside an `ArtifactPart`. -/
structure ArtifactData where
  id : Option String := none
  name : Option String := none
  mimeType : String
  content : String
  description : Option String := none

/-- Internal message `Part` union (`type`-discriminated), with the
optional `metadata` record of `PartBase`. -/
inductive Part where
  | text (text : String) (metadata : Option (List (String × JVal)) := none)
  | file (file : FileRef) (metadata : Option (List (String × JVal)) := none)
  | data (data : List (String × JVal)) (metadata : Option (List (String × JVal)) := none)
  | artifact (artifact : ArtifactData) (metadata : Option (List (String × JVal)) := none)

/-- A typed `ArtifactPart` (the `artifacts` entries of a `Task` and the
payload of artifact stream events). -/
structure ArtifactPartT where
  artifact : ArtifactData
  metadata : Option (List (String × JVal)) := none

/-- Message role. -/
inductive MessageRole where
  | user
  | agent
deriving DecidableEq, Repr

/-- Internal `Message`. -/
structure Message where
  role : MessageRole
  parts : List Part
  contextId : Option String := none
  taskId : Option String := none
  metadata : Option (List (String × JVal)) := none

/-- `TaskError` of a failed task. -/
structure TaskError where
  code : String
  message : String
  details : Option (List (String × JVal)) := none

/-- Internal `Task`. -/
structure Task where
  id : String
  state : TaskState
  contextId : Option String := none
  messages : Option (List Message) := none
  artifacts : Option (List ArtifactPartT) := none
  metadata : Option (List (String × JVal)) := none
  error : Option TaskError := none
  createdAt : Option String := none
  updatedAt : Option String := none

/-- Internal streaming events (`StreamEvent` union of `types.ts`). -/
inductive StreamEvent where
  | statusUpdate (taskId : String) (state : TaskState) (message : Option Message)
      (timestamp : String)
  | artifactUpdate (taskId : String) (artifact : ArtifactPartT) (timestamp : String)

/-! ## Task store (`src/a2a/server.ts`) -/

/-- JS `Map.get`: the value at the first (and, in a JS `Map`, only)
binding of the key. -/
def mapGet {α : Type} : List (String × α) → String → Option α
  | [], _ => none
  | p :: rest, k => if p.1 = k then some p.2 else mapGet rest k

/-- JS `Map.set`: replaces the value of an existing key in place,
appends a new binding otherwise. -/
def mapSet {α : Type} : List (String × α) → String → α → List (String × α)
  | [], k, v => [(k, v)]
  | p :: rest, k, v => if p.1 = k then (k, v) :: rest else p :: mapSet rest k v

/-- The server's `TaskStore` (subscriber callbacks are modelled
functionally at the call sites that use them, not stored). -/
structure TaskStore where
  tasks : List (String × Task)
  taskCounter : Nat

/-- The empty store built by `createTaskStore()`. -/
def createTaskStore : TaskStore := { tasks := [], taskCounter := 0 }

/-- The task id template literal `` `task-$\x7bcounter\x7d` ``. -/
def mkTaskId (k : Nat) : String := "task-" ++ Nat.repr k

/-- The context id derived on task creation: the expression
`message.contextId || crypto.randomUUID()`, on which the empty string is
falsy; `uuid` is the value of `crypto.randomUUID()`. -/
def derivedContextId (message : Message) (uuid : String) : String :=
  match message.contextId with
  | some c => if c = "" then uuid else c
  | none => uuid

/-- `createTask(store, message)`: increments the counter, derives the
context id, and stores a fresh `submitted` task holding the triggering
message.  `now` is the value of `new Date().toISOString()`. -/
def createTask (store : TaskStore) (message : Message) (now uuid : String) :
    Task × TaskStore :=
  let counter := store.taskCounter + 1
  let taskId := mkTaskId counter
  let contextId := derivedContextId message uuid
  let task : Task :=
    { id := taskId
      state := .submitted
      contextId := some contextId
      messages := some [message]
      createdAt := some now
      updatedAt := some now }
  (task, { store with taskCounter := counter, tasks := mapSet store.tasks taskId task })

/-- `updateTaskState(store, taskId, state, message?)`: looks the task up
(returning `null` and leaving the store alone when absent), then
unconditionally overwrites `state`, refreshes `updatedAt`, and appends
`message` to the history when one is supplied. -/
def updateTaskState (store : TaskStore) (taskId : String) (state : TaskState)
    (message : Option Message) (now : String) : Option Task × TaskStore :=
  match mapGet store.tasks taskId with
  | none => (none, store)
  | some task =>
      let task1 : Task := { task with state := state, updatedAt := some now }
      let task2 : Task :=
        match message with
        | some m => { task1 with messages := some (task1.messages.getD [] ++ [m]) }
        | none => task1
      (some task2, { store with tasks := mapSet store.tasks taskId task2 })

/-! ## A2A JSON-RPC handlers (`src/a2a/server.ts`)

The handlers below return their JSON-RPC outcome with the task still in
internal form; the source serializes it with `taskToA2AFormat` before
writing, which does not affect any claim under study.  Request-id
threading and subscriber notification (which do not alter the store) are
omitted. -/

/-- Does the character list start with the pattern? -/
def charsStartWith : List Char → List Char → Bool
  | _, [] => true
  | [], _ :: _ => false
  | c :: cs, p :: ps => c = p && charsStartWith cs ps

/-- Split around the first occurrence of the pattern, when there is one. -/
def splitFirst : List Char → List Char → Option (List Char × List Char)
  | [], pat => if pat.isEmpty then some ([], []) else none
  | c :: cs, pat =>
      if charsStartWith (c :: cs) pat then some ([], (c :: cs).drop pat.length)
      else
        match splitFirst cs pat with
        | some (pre, post) => some (c :: pre, post)
        | none => none

/-- JS `String.prototype.replace` with a string pattern: replaces the
first occurrence only.  Used for `rawId.replace("tasks/", "")`. -/
def jsReplaceFirst (s pat repl : String) : String :=
  match splitFirst s.data pat.data with
  | some (pre, post) => String.mk pre ++ repl ++ String.mk post
  | none => s

/-- Outcome of a non-streaming JSON-RPC handler. -/
inductive JsonRpcOutcome where
  | success (task : Task)
  | rpcError (code : Int) (message : String)

/-- `handleCancelTask`: resolves the raw id, returns `TASK_NOT_FOUND`
(`-32001`) for an unknown task, and otherwise transitions the task to
`cancelled` unconditionally and answers with the updated task. -/
def handleCancelTask (store : TaskStore) (rawId : String) (now : String) :
    JsonRpcOutcome × TaskStore :=
  let taskId := jsReplaceFirst rawId "tasks/" ""
  match mapGet store.tasks taskId with
  | none => (.rpcError (-32001) ("Task not found: " ++ taskId), store)
  | some _ =>
      match updateTaskState store taskId .cancelled none now with
      | (some t2, store2) => (.success t2, store2)
      | (none, store2) =>
          -- unreachable: the task was just found; models the source's
          -- non-null assertion on `store.tasks.get(taskId)!`
          (.rpcError (-32603) "task lost", store2)

/-- One step of draining the handler generator in `handleSendMessage`:
a status update triggers one `updateTaskState` call (recorded in the
trace); artifact events only notify subscribers. -/
def sendMessageStep (taskId now : String)
    (acc : TaskStore × List (TaskState × Option Message)) (ev : StreamEvent) :
    TaskStore × List (TaskState × Option Message) :=
  match ev with
  | .statusUpdate _ st msg _ =>
      ((updateTaskState acc.1 taskId st msg now).2, acc.2 ++ [(st, msg)])
  | .artifactUpdate _ _ _ => acc

/-- `handleSendMessage`, generator branch: create the task, drain every
yielded event into the store, and answer with the task as finally
stored.  The third component is the instrumentation trace of
`updateTaskState` calls. -/
def handleSendMessageGen (store : TaskStore) (message : Message)
    (events : List StreamEvent) (uuid now : String) :
    JsonRpcOutcome × TaskStore × List (TaskState × Option Message) :=
  let (task, store1) := createTask store message now uuid
  let (store2, trace) := events.foldl (sendMessageStep task.id now) (store1, [])
  match mapGet store2.tasks task.id with
  | some t => (.success t, store2, trace)
  | none =>
      -- unreachable: models the source's `store.tasks.get(task.id)!`
      (.rpcError (-32603) "task lost", store2, trace)

/-- `handleSendMessage`, promise branch: create the task, await the
response message, and perform a single `completed` transition carrying
that message. -/
def handleSendMessagePromise (store : TaskStore) (message responseMessage : Message)
    (uuid now : String) :
    JsonRpcOutcome × TaskStore × List (TaskState × Option Message) :=
  let (task, store1) := createTask store message now uuid
  let (_, store2) := updateTaskState store1 task.id .completed (some responseMessage) now
  let trace := [(TaskState.completed, some responseMessage)]
  match mapGet store2.tasks task.id with
  | some t => (.success t, store2, trace)
  | none => (.rpcError (-32603) "task lost", store2, trace)

/-! ### Streaming (SSE) handlers -/

/-- One SSE frame as written by `writeSSEEvent` (already unwrapped from
its JSON-RPC envelope, which carries no claim-relevant data).
`status` frames come from `createA2AStatusEvent`; `artifactPass` frames
are the pass-through of internal artifact events. -/
inductive Frame where
  | status (taskId contextId : String) (state : TaskState) (message : Option Message)
      (timestamp : String) (final : Bool)
  | artifactPass (taskId : String) (artifact : ArtifactPartT) (timestamp : String)

/-- `createA2AStatusEvent(taskId, state, contextId?, message?, isFinal)`:
the wire status-update record, with `context_id` falling back to the
task id. -/
def createA2AStatusEvent (taskId : String) (state : TaskState)
    (contextId : Option String) (message : Option Message) (isFinal : Bool)
    (now : String) : Frame :=
  .status taskId (contextId.getD taskId) state message now isFinal

/-- The `terminalStates` array declared locally inside
`handleSendStreamingMessage` and `handleSubscribeToTask`. -/
def terminalStates : List TaskState :=
  [.completed, .failed, .cancelled, .rejected]

/-- The frame written for one generator event in
`handleSendStreamingMessage`: status events become A2A status-update
frames whose `final` flag is computed from `terminalStates`; other
events are passed through with the task id overridden. -/
def streamFrameOf (taskId : String) (contextId : Option String) (now : String) :
    StreamEvent → Frame
  | .statusUpdate _ st msg _ =>
      createA2AStatusEvent taskId st contextId msg (terminalStates.contains st) now
  | .artifactUpdate _ art ts => .artifactPass taskId art ts

/-- `handleSendStreamingMessage`, generator branch: emit the initial
`submitted` frame, then one frame per yielded event (updating the store
on status events); when the generator throws after its yields
(`throws = true`), the catch block emits a final `failed` frame and
records a `failed` transition.  Frame emission in the source loop does
not read the store, so frames are computed by `map` and store updates by
the same fold as the non-streaming handler. -/
def handleSendStreamingMessageGen (store : TaskStore) (message : Message)
    (events : List StreamEvent) (throws : Bool) (uuid now : String) :
    List Frame × TaskStore :=
  let (task, store1) := createTask store message now uuid
  let f0 := createA2AStatusEvent task.id .submitted task.contextId none false now
  let frames := f0 :: events.map (streamFrameOf task.id task.contextId now)
  let store2 := (events.foldl (sendMessageStep task.id now) (store1, [])).1
  if throws then
    (frames ++ [createA2AStatusEvent task.id .failed task.contextId none true now],
      (updateTaskState store2 task.id .failed none now).2)
  else (frames, store2)

/-- `handleSendStreamingMessage`, promise branch: `working` frame and
transition, then on resolution a final `completed` frame and transition
with the response message; on rejection (`result = none`) the catch
block emits a final `failed` frame and transition. -/
def handleSendStreamingMessagePromise (store : TaskStore) (message : Message)
    (result : Option Message) (uuid now : String) : List Frame × TaskStore :=
  let (task, store1) := createTask store message now uuid
  let f0 := createA2AStatusEvent task.id .submitted task.contextId none false now
  let fw := createA2AStatusEvent task.id .working task.contextId none false now
  let store2 := (updateTaskState store1 task.id .working none now).2
  match result with
  | some m =>
      ([f0, fw, createA2AStatusEvent task.id .completed task.contextId (some m) true now],
        (updateTaskState store2 task.id .completed (some m) now).2)
  | none =>
      ([f0, fw, createA2AStatusEvent task.id .failed task.contextId none true now],
        (updateTaskState store2 task.id .failed none now).2)

/-- The subscription callback of `handleSubscribeToTask`, applied to the
sequence of events notified after subscribing: every status event is
forwarded as an A2A frame; the first terminal one closes the stream and
unsubscribes, so nothing after it is forwarded.  Other events pass
through unchanged. -/
def processSubEvents (taskId : String) (contextId : Option String) (now : String) :
    List StreamEvent → List Frame
  | [] => []
  | .statusUpdate _ st msg _ :: rest =>
      let fin := terminalStates.contains st
      createA2AStatusEvent taskId st contextId msg fin now ::
        (if fin then [] else processSubEvents taskId contextId now rest)
  | .artifactUpdate tid art ts :: rest =>
      .artifactPass tid art ts :: processSubEvents taskId contextId now rest

/-- Outcome of `tasks/resubscribe`: a plain JSON-RPC error for an
unknown task, otherwise the full sequence of SSE frames written before
the connection closes. -/
inductive SubscribeOutcome where
  | rpcError (code : Int) (message : String)
  | stream (frames : List Frame)

/-- `handleSubscribeToTask`: resolve the id, emit the current state with
`final` computed from `terminalStates`, end immediately when terminal,
otherwise forward subsequently notified events (`events`) until the
first terminal one. -/
def handleSubscribeToTask (store : TaskStore) (rawId : String)
    (events : List StreamEvent) (now : String) : SubscribeOutcome :=
  let taskId := jsReplaceFirst rawId "tasks/" ""
  match mapGet store.tasks taskId with
  | none => .rpcError (-32001) ("Task not found: " ++ taskId)
  | some task =>
      let fin := terminalStates.contains task.state
      let f0 := createA2AStatusEvent taskId task.state task.contextId none fin now
      if fin then .stream [f0]
      else .stream (f0 :: processSubEvents taskId task.contextId now events)

/-! ## Wire-format part conversion (`src/a2a/server.ts`)

`normalizePart` and `partToKind` act on the part as an open record,
renaming the discriminator key; they are modelled on records directly
(`"k" in p` is key presence, the rest-spread drops the destructured
key and keeps the remaining fields in order). -/

/-- `normalizePart`: if the record has `kind` but no `type`, rebuild it
as `\x7b type: kind, ...rest \x7d`. -/
def normalizePartR (r : List (String × JVal)) : List (String × JVal) :=
  match lookupField r "kind", lookupField r "type" with
  | some v, none => ("type", v) :: eraseField r "kind"
  | _, _ => r

/-- `partToKind`: if the record has `type` but no `kind`, rebuild it as
`\x7b kind: type, ...rest \x7d`. -/
def partToKindR (r : List (String × JVal)) : List (String × JVal) :=
  match lookupField r "type", lookupField r "kind" with
  | some v, none => ("kind", v) :: eraseField r "type"
  | _, _ => r

/-! ## LangGraph adapter (`src/langgraph/server.ts`) -/

/-- Agent card fields used by the constructors under study. -/
structure AgentCard where
  name : String
  description : Option String := none
  url : String

/-- A LangGraph assistant record (the `config`/`metadata` maps derived
from the card carry no claim-relevant state and are omitted). -/
structure LGAssistant where
  assistant_id : String
  graph_id : String
  name : Option String
  description : Option String
  created_at : String
  updated_at : String
  version : Nat

/-- Thread status values. -/
inductive ThreadStatus where
  | idle
  | busy
  | interrupted
  | error
deriving DecidableEq, Repr

/-- A LangGraph thread record. -/
structure LGThread where
  thread_id : String
  status : ThreadStatus
  created_at : String
  updated_at : String

/-- A LangChain-style message as built by `a2aToLangGraphMessage`. -/
structure LGMessage where
  type : String
  content : String
  id : Option String := none

/-- A task entry inside a thread state (always empty in the source). -/
structure LGTaskEntry where
  id : String
  name : String

/-- A thread state snapshot: `\x7b values: \x7b messages \x7d, next, tasks \x7d`. -/
structure LGThreadState where
  valuesMessages : List LGMessage
  next : List String
  tasks : List LGTaskEntry

/-- The `LangGraphStore` owned by a `LangGraphServer` instance. -/
structure LangGraphStore where
  assistants : List (String × LGAssistant)
  threads : List (String × LGThread)
  threadStates : List (String × LGThreadState)
  runCounter : Nat

/-- `createStore()`: all maps empty. -/
def createLGStore : LangGraphStore :=
  { assistants := [], threads := [], threadStates := [], runCounter := 0 }

/-- The `LangGraphServer` constructor: a fresh store of its own, seeded
with the single synthetic assistant derived from the agent card. -/
def newLangGraphServerStore (card : AgentCard) (assistantId now : String) :
    LangGraphStore :=
  { createLGStore with
      assistants := mapSet [] assistantId
        { assistant_id := assistantId
          graph_id := "agent"
          name := some card.name
          description := card.description
          created_at := now
          updated_at := now
          version := 1 } }

/-- `GET /threads/:id/state` (`handleGetThreadState`): a lookup in the
LangGraph store's own `threadStates` map; `none` is the 404
`"Thread not found"` answer. -/
def handleGetThreadState (store : LangGraphStore) (id : String) :
    Option LGThreadState :=
  mapGet store.threadStates id

/-! ## Dual-protocol `AgentServer` (`src/langgraph/dual-server.ts`) -/

/-- The state owned by one `AgentServer`: the constructor builds an
`A2AServer` (which creates its own `TaskStore`, no `taskStore` override
being passed) and a `LangGraphServer` (which creates its own
`LangGraphStore`); only the `handler` function is passed to both. -/
structure AgentServerState where
  a2aStore : TaskStore
  lgStore : LangGraphStore

/-- The `AgentServer` constructor. -/
def newAgentServer (card : AgentCard) (assistantId now : String) :
    AgentServerState :=
  { a2aStore := createTaskStore
    lgStore := newLangGraphServerStore card assistantId now }

/-- A `message/send` request routed by the dual server: `POST /` goes to
the A2A adapter, whose handler closes over the A2A store only. -/
def dualSendMessageGen (s : AgentServerState) (message : Message)
    (events : List StreamEvent) (uuid now : String) :
    JsonRpcOutcome × AgentServerState :=
  let r := handleSendMessageGen s.a2aStore message events uuid now
  (r.1, { s with a2aStore := r.2.1 })

/-- `GET /threads/:id/state` routed by the dual server: it goes to the
LangGraph adapter, which reads its own store. -/
def dualGetThreadState (s : AgentServerState) (id : String) :
    Option LGThreadState :=
  handleGetThreadState s.lgStore id

/-! ## LangGraph run-input normalization (`src/langgraph/server.ts`)

`inputToA2AMessage` and `langGraphToA2AMessage` probe untyped JSON
records, so they are modelled over `JVal` with JS dynamic semantics:
property access on `null` and calling `.filter` on a non-array value
throw a `TypeError`, modelled as `Except.error`. -/

/-- Strict JS equality of a possibly-absent value with a string literal,
`v === "s"`. -/
def isJStr (v : Option JVal) (s : String) : Bool :=
  match v with
  | some (.jstr t) => t == s
  | _ => false

/-- `msg.content.filter((c) => c.type === "text").map((c) => c.text || "")`:
evaluating the filter predicate on a `null` element throws; kept
elements contribute `c.text` when truthy (stringified by `join`) and
`""` otherwise. -/
def contentTexts : List JVal → Except String (List String)
  | [] => .ok []
  | .jnull :: _ => .error "TypeError: cannot read properties of null"
  | c :: rest =>
      match contentTexts rest with
      | .error e => .error e
      | .ok ts =>
          if isJStr (jsField c "type") "text" then
            let tx :=
              match jsField c "text" with
              | some v => if jsTruthy v then jsToString v else ""
              | none => ""
            .ok (tx :: ts)
          else .ok ts

/-- Is the value JS `null`?  (Property access on `null` throws.) -/
def jsIsNull : JVal → Bool
  | .jnull => true
  | _ => false

/-- The collapse of `msg.content` to one text string: directly when it
is a string, by filter/map/join when it is an array, and with a thrown
`TypeError` otherwise. -/
def contentToText (m : JVal) : Except String String :=
  match jsField m "content" with
  | some (.jstr s) => .ok s
  | some (.jarr cs) =>
      match contentTexts cs with
      | .ok ts => .ok (String.intercalate "\n" ts)
      | .error e => .error e
  | _ => .error "TypeError: content.filter is not a function"

/-- `langGraphToA2AMessage(msg)` on a runtime value: the role is `user`
exactly when `msg.type === "human"`, and the content collapses to a
single text part via `contentToText`. -/
def langGraphToA2AMessageJV (m : JVal) : Except String Message :=
  if jsIsNull m then .error "TypeError: cannot read properties of null"
  else
    match contentToText m with
    | .ok s =>
        .ok { role := if isJStr (jsField m "type") "human" then .user else .agent,
              parts := [.text s none] }
    | .error e => .error e

/-- The `messages` branch of `inputToA2AMessage`: fires when the input
has an array-valued `messages` field whose last element is truthy
(an empty array yields `undefined`, which is falsy, so the later
branches are tried instead). -/
def messagesDispatch (input : List (String × JVal)) : Option JVal :=
  match lookupField input "messages" with
  | some (.jarr xs) =>
      match xs.getLast? with
      | some last => if jsTruthy last then some last else none
      | none => none
  | _ => none

/-- A string-valued field check, `"k" in input && typeof input.k === "string"`. -/
def getStrField (input : List (String × JVal)) (k : String) : Option String :=
  match lookupField input k with
  | some (.jstr s) => some s
  | _ => none

/-- The user-role single-text-part message built by the string-shape
branches of `inputToA2AMessage`. -/
def userTextMessage (s : String) : Message :=
  { role := .user, parts := [.text s none] }

/-- `inputToA2AMessage(input)`: the ordered extraction strategies —
last element of a `messages` array (role-mapped), then the `message`,
`content` and `text` string fields (user role), then the JSON
stringification of the whole input as fallback text. -/
def inputToA2AMessageJV (input : List (String × JVal)) : Except String Message :=
  match messagesDispatch input with
  | some last => langGraphToA2AMessageJV last
  | none =>
      match getStrField input "message" with
      | some s => .ok (userTextMessage s)
      | none =>
          match getStrField input "content" with
          | some s => .ok (userTextMessage s)
          | none =>
              match getStrField input "text" with
              | some s => .ok (userTextMessage s)
              | none => .ok (userTextMessage (jsonStringify (.jobj input)))

/-! ## Map lemmas -/

theorem mapGet_mapSet_self {α : Type} (m : List (String × α)) (k : String) (v : α) :
    mapGet (mapSet m k v) k = some v := by
  induction m with
  | nil => simp [mapGet, mapSet]
  | cons p rest ih =>
    by_cases hp : p.1 = k <;> simp [mapGet, mapSet, hp, ih]

theorem mapGet_mapSet_ne {α : Type} (m : List (String × α)) (k k' : String) (v : α)
    (h : k' ≠ k) :
    mapGet (mapSet m k v) k' = mapGet m k' := by
  induction m with
  | nil => simp [mapGet, mapSet, Ne.symm h]
  | cons p rest ih =>
    by_cases hp : p.1 = k
    · simp [mapGet, mapSet, hp, Ne.symm h]
    · by_cases hq : p.1 = k'
      · simp only [mapSet, hp, if_neg, not_false_iff]
        simp [mapGet, hq]
      · simp [mapGet, mapSet, hp, hq, ih]

theorem mem_mapSet {α : Type} {m : List (String × α)} {k : String} {v : α}
    {p : String × α} (h : p ∈ mapSet m k v) : p = (k, v) ∨ p ∈ m := by
  induction m with
  | nil => simpa [mapSet] using h
  | cons q rest ih =>
    by_cases hq : q.1 = k
    · simp only [mapSet, hq, if_pos] at h
      rcases List.mem_cons.1 h with h1 | h1
      · exact Or.inl h1
      · exact Or.inr (List.mem_cons_of_mem _ h1)
    · simp only [mapSet, hq, if_neg, not_false_iff] at h
      rcases List.mem_cons.1 h with h1 | h1
      · exact Or.inr (h1 ▸ List.mem_cons_self _ _)
      · rcases ih h1 with h2 | h2
        · exact Or.inl h2
        · exact Or.inr (List.mem_cons_of_mem _ h2)

/-! ## Injectivity of the decimal task-id rendering -/

/-- Decimal digits of `n`, most significant first; the specification of
what `Nat.toDigitsCore` computes. -/
def natDigits (n : Nat) : List Char :=
  if _h : n < 10 then [Nat.digitChar n]
  else natDigits (n / 10) ++ [Nat.digitChar (n % 10)]
decreasing_by exact Nat.div_lt_self (by omega) (by omega)

theorem toDigitsCore_eq_natDigits (f : Nat) : ∀ (n : Nat) (ds : List Char), n < f →
    Nat.toDigitsCore 10 f n ds = natDigits n ++ ds := by
  induction f with
  | zero => intro n ds h; omega
  | succ f ih =>
    intro n ds h
    by_cases h10 : n / 10 = 0
    · have hn : n < 10 := by
        by_contra hge
        have : 1 ≤ n / 10 := Nat.one_le_div_iff (by omega) |>.2 (by omega)
        omega
      simp only [Nat.toDigitsCore]
      rw [if_pos h10]
      conv_rhs => rw [natDigits]
      rw [dif_pos hn, Nat.mod_eq_of_lt hn]
      rfl
    · have hge : 10 ≤ n := by
        by_contra hlt
        exact h10 (Nat.div_eq_of_lt (by omega))
      have hdf : n / 10 < f := by
        have h1 : n / 10 < n := Nat.div_lt_self (by omega) (by omega)
        omega
      simp only [Nat.toDigitsCore]
      rw [if_neg h10, ih (n / 10) _ hdf]
      conv_rhs => rw [natDigits]
      rw [dif_neg (by omega : ¬ n < 10), List.append_assoc]
      rfl

theorem digitChar_decode : ∀ d : Nat, d < 10 → (Nat.digitChar d).toNat - 48 = d := by
  decide

theorem natDigits_foldl (n : Nat) : ∀ acc : Nat,
    (natDigits n).foldl (fun a c => 10 * a + (c.toNat - 48)) acc
      = acc * 10 ^ (natDigits n).length + n := by
  induction n using Nat.strong_induction_on with
  | _ n ih =>
    intro acc
    by_cases h : n < 10
    · rw [natDigits, dif_pos h]
      simp only [List.foldl_cons, List.foldl_nil, List.length_singleton, pow_one]
      rw [digitChar_decode n h]
      ring
    · rw [natDigits, dif_neg h]
      rw [List.foldl_append]
      have hdiv : n / 10 < n := Nat.div_lt_self (by omega) (by omega)
      rw [ih (n / 10) hdiv acc]
      simp only [List.foldl_cons, List.foldl_nil, List.length_append,
        List.length_singleton]
      rw [digitChar_decode (n % 10) (Nat.mod_lt n (by omega))]
      rw [pow_succ]
      have hmod := Nat.div_add_mod n 10
      calc 10 * (acc * 10 ^ (natDigits (n / 10)).length + n / 10) + n % 10
          = acc * (10 ^ (natDigits (n / 10)).length * 10) + (10 * (n / 10) + n % 10) := by
            ring
        _ = acc * (10 ^ (natDigits (n / 10)).length * 10) + n := by rw [hmod]

theorem natDigits_injective {a b : Nat} (h : natDigits a = natDigits b) : a = b := by
  have ha := natDigits_foldl a 0
  have hb := natDigits_foldl b 0
  rw [h] at ha
  simp only [Nat.zero_mul, Nat.zero_add] at ha hb
  omega

theorem nat_repr_injective {a b : Nat} (h : Nat.repr a = Nat.repr b) : a = b := by
  have hd : (Nat.toDigits 10 a) = (Nat.toDigits 10 b) := by
    have := congrArg String.data h
    simpa [Nat.repr, List.asString] using this
  unfold Nat.toDigits at hd
  rw [toDigitsCore_eq_natDigits _ a [] (Nat.lt_succ_self a),
    toDigitsCore_eq_natDigits _ b [] (Nat.lt_succ_self b)] at hd
  simp only [List.append_nil] at hd
  exact natDigits_injective hd

theorem mkTaskId_injective {a b : Nat} (h : mkTaskId a = mkTaskId b) : a = b := by
  unfold mkTaskId at h
  have hd := congrArg String.data h
  simp only [String.data_append] at hd
  have hdata : (Nat.repr a).data = (Nat.repr b).data := List.append_cancel_left hd
  exact nat_repr_injective (String.ext hdata)

/-! ## Concrete fixtures used by witnesses and counterexamples -/

/-- A well-formed inbound user message with a non-empty context id. -/
def exampleMessage : Message :=
  { role := .user, parts := [.text "Hello" none], contextId := some "ctx-1" }

/-- A task that has already reached the terminal state `completed`. -/
def completedTask : Task :=
  { id := "task-1", state := .completed, contextId := some "ctx-1",
    messages := some [exampleMessage], createdAt := some "T0", updatedAt := some "T0" }

/-- A store holding only `completedTask`. -/
def storeWithCompletedTask : TaskStore :=
  { tasks := [("task-1", completedTask)], taskCounter := 1 }

/-! ## Store lemmas shared by the claims -/

theorem createTask_mapGet (store : TaskStore) (message : Message) (now uuid : String) :
    mapGet ((createTask store message now uuid).2).tasks
        ((createTask store message now uuid).1).id
      = some ((createTask store message now uuid).1) := by
  simp only [createTask]
  exact mapGet_mapSet_self _ _ _

/-- Store well-formedness: every stored key was allocated from some
counter value not exceeding the current one. -/
def storeIdsBounded (s : TaskStore) : Prop :=
  ∀ p ∈ s.tasks, ∃ j, j ≤ s.taskCounter ∧ p.1 = mkTaskId j

/-! ## Claim C10 -/

/-- C10: `updateTaskState` mutates only `state`, `updatedAt` and (when a
message is supplied) appends it to `messages`; `id`, `contextId`,
`createdAt`, `artifacts`, `metadata` and `error` are unchanged, the
existing message prefix is preserved in order, other keys of the task
map are untouched, and an unknown task id returns `null` with the store
unchanged. -/
theorem updateTaskState_frame (store : TaskStore) (taskId : String)
    (state : TaskState) (msg : Option Message) (now : String) :
    (mapGet store.tasks taskId = none →
      updateTaskState store taskId state msg now = (none, store)) ∧
    (∀ t, mapGet store.tasks taskId = some t →
      ∃ t2, updateTaskState store taskId state msg now
          = (some t2, { store with tasks := mapSet store.tasks taskId t2 }) ∧
        t2.id = t.id ∧ t2.state = state ∧ t2.updatedAt = some now ∧
        t2.contextId = t.contextId ∧ t2.createdAt = t.createdAt ∧
        t2.artifacts = t.artifacts ∧ t2.metadata = t.metadata ∧ t2.error = t.error ∧
        (∀ m, msg = some m → t2.messages = some (t.messages.getD [] ++ [m])) ∧
        (msg = none → t2.messages = t.messages) ∧
        mapGet (mapSet store.tasks taskId t2) taskId = some t2 ∧
        (∀ k, k ≠ taskId → mapGet (mapSet store.tasks taskId t2) k = mapGet store.tasks k)) := by
  constructor
  · intro h
    unfold updateTaskState
    rw [h]
  · intro t ht
    unfold updateTaskState
    rw [ht]
    cases msg with
    | none =>
        exact ⟨_, rfl, rfl, rfl, rfl, rfl, rfl, rfl, rfl, rfl,
          fun m hm => Option.noConfusion hm, fun _ => rfl,
          mapGet_mapSet_self _ _ _, fun k hk => mapGet_mapSet_ne _ _ _ _ hk⟩
    | some m =>
        refine ⟨_, rfl, rfl, rfl, rfl, rfl, rfl, rfl, rfl, rfl,
          ?_, fun hm => Option.noConfusion hm,
          mapGet_mapSet_self _ _ _, fun k hk => mapGet_mapSet_ne _ _ _ _ hk⟩
        intro m' hm'
        cases hm'
        rfl

/-- C10 witness: the frame theorem applied to the concrete store at a
found task. -/
theorem updateTaskState_frame_witness :
    mapGet storeWithCompletedTask.tasks "task-1" = some completedTask ∧
    ∃ t2, updateTaskState storeWithCompletedTask "task-1" .working none "T1"
        = (some t2, { storeWithCompletedTask with
            tasks := mapSet storeWithCompletedTask.tasks "task-1" t2 }) ∧
      t2.id = completedTask.id ∧ t2.contextId = completedTask.contextId := by
  refine ⟨rfl, ?_⟩
  obtain ⟨t2, h1, h2, _, _, h3, _⟩ :=
    (updateTaskState_frame storeWithCompletedTask "task-1" .working none "T1").2
      completedTask rfl
  exact ⟨t2, h1, h2, h3⟩

/-! ## Claim C8 -/

/-- C8: `createTask` is total and returns a task whose id is fresh for
the store (under the store invariant), whose state is `submitted`, whose
message history is exactly the triggering message, and whose context id
is the message's when that is a non-empty string and the freshly
generated non-empty `uuid` otherwise; the invariant is preserved and the
task is stored under its id. -/
theorem createTask_spec (store : TaskStore) (message : Message) (now uuid : String)
    (hinv : storeIdsBounded store) (huuid : uuid ≠ "") :
    ∃ t store2, createTask store message now uuid = (t, store2) ∧
      t.id = mkTaskId (store.taskCounter + 1) ∧
      (∀ p ∈ store.tasks, p.1 ≠ t.id) ∧
      t.state = .submitted ∧
      t.messages = some [message] ∧
      t.contextId = some (derivedContextId message uuid) ∧
      (∀ c, message.contextId = some c → c ≠ "" → derivedContextId message uuid = c) ∧
      ((message.contextId = none ∨ message.contextId = some "") →
        derivedContextId message uuid = uuid) ∧
      derivedContextId message uuid ≠ "" ∧
      storeIdsBounded store2 ∧
      mapGet store2.tasks t.id = some t := by
  refine ⟨_, _, rfl, rfl, ?_, rfl, rfl, rfl, ?_, ?_, ?_, ?_, createTask_mapGet _ _ _ _⟩
  · intro p hp heq
    obtain ⟨j, hj, hpj⟩ := hinv p hp
    have : j = store.taskCounter + 1 := mkTaskId_injective (hpj ▸ heq)
    omega
  · intro c hc hne
    unfold derivedContextId
    rw [hc]
    simp [hne]
  · rintro (h | h) <;> simp [derivedContextId, h]
  · unfold derivedContextId
    cases hc : message.contextId with
    | none => exact huuid
    | some c =>
        by_cases hce : c = ""
        · simpa [hce] using huuid
        · show (if c = "" then uuid else c) ≠ ""
          rw [if_neg hce]; exact hce
  · intro p hp
    rcases mem_mapSet hp with h1 | h1
    · exact ⟨store.taskCounter + 1, le_refl _, by rw [h1]⟩
    · obtain ⟨j, hj, hpj⟩ := hinv p h1
      exact ⟨j, show j ≤ store.taskCounter + 1 by omega, hpj⟩

/-- C8 witness: creation in the empty store with a fresh uuid. -/
theorem createTask_spec_witness :
    ∃ t store2, createTask createTaskStore exampleMessage "T1" "uuid-1" = (t, store2) ∧
      t.id = mkTaskId 1 ∧ t.state = .submitted ∧
      t.messages = some [exampleMessage] := by
  obtain ⟨t, s2, he, hid, _, hstate, hmsgs, _⟩ :=
    createTask_spec createTaskStore exampleMessage "T1" "uuid-1"
      (fun p hp => absurd hp (List.not_mem_nil p)) (by decide)
  exact ⟨t, s2, he, hid, hstate, hmsgs⟩

/-- The task freshly created from `exampleMessage` at time `T1`. -/
def freshTaskT1 : Task :=
  { id := "task-1", state := .submitted, contextId := some "ctx-1",
    messages := some [exampleMessage], createdAt := some "T1",
    updatedAt := some "T1" }

/-- `completedTask` after a (table-forbidden) overwrite to `working`. -/
def workingTaskT1 : Task :=
  { completedTask with state := .working, updatedAt := some "T1" }

/-- `completedTask` after the unconditional cancel overwrite. -/
def cancelledTaskT1 : Task :=
  { completedTask with state := .cancelled, updatedAt := some "T1" }

/-! ## Claim C1 -/

/-- C1: the transition table of `types.ts` forbids `completed → working`
(a terminal state), yet `updateTaskState` applies it anyway: on a stored
`completed` task the operation succeeds, overwrites the state and
refreshes `updatedAt`, never consulting `canTransitionTask`. -/
theorem updateTaskState_ignores_transition_table :
    canTransitionTask .completed .working = false ∧
    TERMINAL_TASK_STATES.contains TaskState.completed = true ∧
    updateTaskState storeWithCompletedTask "task-1" .working none "T1"
      = (some workingTaskT1,
         { storeWithCompletedTask with tasks := [("task-1", workingTaskT1)] }) := by
  exact ⟨rfl, rfl, rfl⟩

/-! ## Claim C2 -/

/-- C2: `tasks/cancel` on a task already in the terminal state
`completed` answers success with the task transitioned to `cancelled`
(mutating the store), instead of the `INVALID_PARAMS` (`-32602`) error
with message "Cannot cancel task in state ..." that the server's own
tests and changelog require. -/
theorem handleCancelTask_cancels_terminal :
    TERMINAL_TASK_STATES.contains completedTask.state = true ∧
    handleCancelTask storeWithCompletedTask "tasks/task-1" "T1"
      = (.success cancelledTaskT1,
         { storeWithCompletedTask with tasks := [("task-1", cancelledTaskT1)] }) := by
  exact ⟨rfl, rfl⟩

/-! ## Claim C6 -/

/-- The message returned by the promise-based example handler. -/
def respMessage : Message := { role := .agent, parts := [.text "Echo: Hello" none] }

/-- C6: on `message/send` a promise-based handler performs exactly one
`updateTaskState` call, directly to `completed` with the returned
message appended — no intermediate `working` transition is recorded,
contrary to the claimed `working → completed` pair. -/
theorem handleSendMessagePromise_skips_working :
    (handleSendMessagePromise createTaskStore exampleMessage respMessage "u-1" "T1").2.2
      = [(TaskState.completed, some respMessage)] ∧
    ((handleSendMessagePromise createTaskStore exampleMessage respMessage "u-1" "T1").2.2).map
        Prod.fst ≠ [TaskState.working, TaskState.completed] ∧
    (handleSendMessagePromise createTaskStore exampleMessage respMessage "u-1" "T1").1
      = .success { freshTaskT1 with
                   state := .completed,
                   messages := some [exampleMessage, respMessage] } := by
  refine ⟨rfl, ?_, rfl⟩
  intro h
  have h2 : [TaskState.completed] = [TaskState.working, TaskState.completed] := h
  exact absurd h2 (by decide)

/-! ## Claim C4 -/

/-- C4 counterexample: on a `message/send` whose generator yields zero
updates, the returned task is still in the non-terminal `submitted`
state with no error — the adapter does not synthesize a `failed`
terminal transition. -/
theorem handleSendMessageGen_empty_counterexample :
    (handleSendMessageGen createTaskStore exampleMessage [] "u-1" "T1").1
      = .success freshTaskT1 ∧
    TaskState.submitted ≠ TaskState.failed ∧
    TERMINAL_TASK_STATES.contains TaskState.submitted = false := by
  exact ⟨rfl, by decide, rfl⟩

/-- C4 amended: for every message/send request whose handler generator
yields zero updates, no state transition is performed at all: the
response carries the freshly created task, still `submitted`, holding
only the triggering message and no error, and the transition trace is
empty. -/
theorem handleSendMessageGen_empty (store : TaskStore) (message : Message)
    (uuid now : String) :
    handleSendMessageGen store message [] uuid now
      = (.success { id := mkTaskId (store.taskCounter + 1),
                    state := .submitted,
                    contextId := some (derivedContextId message uuid),
                    messages := some [message],
                    createdAt := some now,
                    updatedAt := some now },
         { store with taskCounter := store.taskCounter + 1,
                      tasks := mapSet store.tasks (mkTaskId (store.taskCounter + 1))
                        { id := mkTaskId (store.taskCounter + 1),
                          state := .submitted,
                          contextId := some (derivedContextId message uuid),
                          messages := some [message],
                          createdAt := some now,
                          updatedAt := some now } },
         []) := by
  unfold handleSendMessageGen createTask
  simp only [List.foldl_nil]
  rw [mapGet_mapSet_self]

/-! ## Claim C3 -/

/-- The agent card of the concrete dual server. -/
def exampleCard : AgentCard := { name := "Test Agent", url := "http://localhost:3000" }

/-- A freshly constructed dual-protocol server. -/
def dualServer0 : AgentServerState := newAgentServer exampleCard "asst-1" "T0"

/-- C3 counterexample: on a fresh `AgentServer`, a task created through
A2A `message/send` (stored as `task-1` with context `ctx-1` in the A2A
store) is not observable through the LangGraph adapter's
`GET /threads/:id/state` read, neither under its context id nor under
its task id: the LangGraph store has no thread state for either. -/
theorem dual_store_not_shared :
    (dualSendMessageGen dualServer0 exampleMessage [] "u-1" "T1").1
      = .success freshTaskT1 ∧
    freshTaskT1.contextId = some "ctx-1" ∧
    dualGetThreadState (dualSendMessageGen dualServer0 exampleMessage [] "u-1" "T1").2
      "ctx-1" = none ∧
    dualGetThreadState (dualSendMessageGen dualServer0 exampleMessage [] "u-1" "T1").2
      "task-1" = none := by
  exact ⟨rfl, rfl, rfl, rfl⟩

/-- C3 amended: the `AgentServer` constructor passes the one handler to
both adapters, but each adapter constructs its own store; an A2A
`message/send` acts exactly as the A2A server's handler on the A2A
store and leaves the LangGraph store — hence every LangGraph thread
state read — unchanged. -/
theorem dualSendMessage_lgStore_frame (s : AgentServerState) (message : Message)
    (events : List StreamEvent) (uuid now : String) :
    (dualSendMessageGen s message events uuid now).2.lgStore = s.lgStore ∧
    (∀ tid, dualGetThreadState (dualSendMessageGen s message events uuid now).2 tid
        = dualGetThreadState s tid) ∧
    (dualSendMessageGen s message events uuid now).2.a2aStore
      = (handleSendMessageGen s.a2aStore message events uuid now).2.1 ∧
    (dualSendMessageGen s message events uuid now).1
      = (handleSendMessageGen s.a2aStore message events uuid now).1 := by
  exact ⟨rfl, fun _ => rfl, rfl, rfl⟩

/-! ## Claim C7 -/

theorem lookupField_eraseField_self (r : List (String × JVal)) (k : String) :
    lookupField (eraseField r k) k = none := by
  induction r with
  | nil => rfl
  | cons p rest ih =>
    by_cases hp : p.1 = k
    · simp [eraseField, hp, ih]
    · simp [eraseField, lookupField, hp, ih]

theorem lookupField_eraseField_ne (r : List (String × JVal)) (k k' : String)
    (h : k ≠ k') :
    lookupField (eraseField r k') k = lookupField r k := by
  induction r with
  | nil => rfl
  | cons p rest ih =>
    by_cases hp : p.1 = k'
    · have hpk : ¬ p.1 = k := by rw [hp]; exact Ne.symm h
      simp [eraseField, lookupField, hp, hpk, h, Ne.symm h, ih]
    · by_cases hq : p.1 = k
      · simp [eraseField, lookupField, hp, hq, h, Ne.symm h]
      · simp [eraseField, lookupField, hp, hq, h, Ne.symm h, ih]

theorem eraseField_of_lookup_none (r : List (String × JVal)) (k : String)
    (h : lookupField r k = none) : eraseField r k = r := by
  induction r with
  | nil => rfl
  | cons p rest ih =>
    by_cases hp : p.1 = k
    · simp [lookupField, hp] at h
    · simp only [lookupField, hp, if_neg, not_false_iff] at h
      simp [eraseField, hp, ih h]

/-- C7: converting an internal part record (`type`-discriminated, with
no `kind` key) to wire form with `partToKind` and back with
`normalizePart` yields a record equal to the original (same value at
every key).  The hypotheses state exactly that the part is internal:
it has a `type` key and no `kind` key. -/
theorem part_roundtrip (r : List (String × JVal)) (v : JVal)
    (htype : lookupField r "type" = some v) (hkind : lookupField r "kind" = none) :
    ∀ k, lookupField (normalizePartR (partToKindR r)) k = lookupField r k := by
  intro k
  unfold partToKindR
  rw [htype, hkind]
  unfold normalizePartR
  have h1 : lookupField (("kind", v) :: eraseField r "type") "kind" = some v := by
    simp [lookupField]
  have h2 : lookupField (("kind", v) :: eraseField r "type") "type" = none := by
    have h0 := lookupField_eraseField_self r "type"
    simp [lookupField, h0]
  rw [h1, h2]
  have h3 : eraseField (("kind", v) :: eraseField r "type") "kind" = eraseField r "type" := by
    have h4 : lookupField (eraseField r "type") "kind" = none := by
      rw [lookupField_eraseField_ne r "kind" "type" (by decide)]
      exact hkind
    simp [eraseField, eraseField_of_lookup_none _ _ h4]
  rw [h3]
  by_cases hk : k = "type"
  · subst hk
    simp [lookupField, htype]
  · have h5 : lookupField (eraseField r "type") k = lookupField r k :=
      lookupField_eraseField_ne r k "type" hk
    simp [lookupField, Ne.symm hk, h5]

/-- C7 witness: the round trip at a concrete text part. -/
theorem part_roundtrip_witness :
    lookupField [("type", JVal.jstr "text"), ("text", JVal.jstr "Hello")] "type"
      = some (JVal.jstr "text") ∧
    lookupField [("type", JVal.jstr "text"), ("text", JVal.jstr "Hello")] "kind"
      = none ∧
    ∀ k, lookupField (normalizePartR (partToKindR
        [("type", JVal.jstr "text"), ("text", JVal.jstr "Hello")])) k
      = lookupField [("type", JVal.jstr "text"), ("text", JVal.jstr "Hello")] k :=
  ⟨rfl, rfl, part_roundtrip _ _ rfl rfl⟩

/-! ## Claim C5 -/

/-- A status frame's `final` flag is set iff the reported state is
terminal; artifact pass-through frames carry no flag. -/
def statusFinalOk : Frame → Prop
  | .status _ _ st _ _ fin => fin = terminalStates.contains st
  | .artifactPass _ _ _ => True

theorem streamFrameOf_final_ok (taskId : String) (ctx : Option String)
    (now : String) (ev : StreamEvent) : statusFinalOk (streamFrameOf taskId ctx now ev) := by
  cases ev <;> simp [streamFrameOf, createA2AStatusEvent, statusFinalOk]

/-- The frames written by the generator branch of
`handleSendStreamingMessage`, in closed form. -/
theorem handleSendStreamingMessageGen_frames (store : TaskStore) (message : Message)
    (events : List StreamEvent) (throws : Bool) (uuid now : String) :
    (handleSendStreamingMessageGen store message events throws uuid now).1
      = createA2AStatusEvent (mkTaskId (store.taskCounter + 1)) .submitted
          (some (derivedContextId message uuid)) none false now
        :: events.map (streamFrameOf (mkTaskId (store.taskCounter + 1))
             (some (derivedContextId message uuid)) now)
        ++ (if throws then
              [createA2AStatusEvent (mkTaskId (store.taskCounter + 1)) .failed
                (some (derivedContextId message uuid)) none true now]
            else []) := by
  unfold handleSendStreamingMessageGen createTask
  by_cases ht : throws <;> simp [ht]

theorem processSubEvents_final_ok (taskId : String) (ctx : Option String)
    (now : String) (events : List StreamEvent) :
    ∀ f ∈ processSubEvents taskId ctx now events, statusFinalOk f := by
  induction events with
  | nil => intro f hf; simp [processSubEvents] at hf
  | cons ev rest ih =>
    intro f hf
    cases ev with
    | statusUpdate a st m ts =>
        simp only [processSubEvents] at hf
        rcases List.mem_cons.1 hf with h1 | h1
        · subst h1; simp [createA2AStatusEvent, statusFinalOk]
        · by_cases hfin : terminalStates.contains st = true
          · rw [hfin] at h1; simp at h1
          · rw [Bool.not_eq_true] at hfin
            rw [hfin] at h1
            simp only [Bool.false_eq_true, if_false] at h1
            exact ih f h1
    | artifactUpdate tid art ts =>
        simp only [processSubEvents] at hf
        rcases List.mem_cons.1 hf with h1 | h1
        · subst h1; exact trivial
        · exact ih f h1

/-- In the resubscribe callback stream, nothing follows a frame whose
`final` flag is set: the first terminal status event closes the stream
and unsubscribes. -/
theorem processSubEvents_terminal_stops (taskId : String) (ctx : Option String)
    (now : String) (events : List StreamEvent) :
    ∀ l1 tid cid st m ts l2,
      processSubEvents taskId ctx now events
        = l1 ++ Frame.status tid cid st m ts true :: l2 →
      terminalStates.contains st = true ∧ l2 = [] := by
  induction events with
  | nil =>
    intro l1 tid cid st m ts l2 h
    exact absurd h (by simp [processSubEvents])
  | cons ev rest ih =>
    intro l1 tid cid st m ts l2 h
    cases ev with
    | statusUpdate a st0 m0 ts0 =>
        simp only [processSubEvents] at h
        cases l1 with
        | nil =>
            simp only [List.nil_append] at h
            obtain ⟨he, ht⟩ := List.cons.inj h
            obtain ⟨_, _, hst, _, _, hfin⟩ := Frame.status.inj he
            subst hst
            constructor
            · rw [← hfin]
            · rw [← hfin] at ht
              simp only [if_true] at ht
              exact ht.symm
        | cons a1 l1t =>
            simp only [List.cons_append] at h
            obtain ⟨_, ht⟩ := List.cons.inj h
            by_cases hfin : terminalStates.contains st0 = true
            · rw [hfin] at ht
              simp only [if_true] at ht
              exact absurd ht.symm (List.append_ne_nil_of_right_ne_nil _ (by simp))
            · rw [Bool.not_eq_true] at hfin
              rw [hfin] at ht
              simp only [Bool.false_eq_true, if_false] at ht
              exact ih l1t tid cid st m ts l2 ht
    | artifactUpdate tid0 art0 ts0 =>
        simp only [processSubEvents] at h
        cases l1 with
        | nil =>
            simp only [List.nil_append] at h
            exact absurd (List.cons.inj h).1 (by intro hc; cases hc)
        | cons a1 l1t =>
            simp only [List.cons_append] at h
            exact ih l1t tid cid st m ts l2 (List.cons.inj h).2

/-- Projection of a frame to its reported state and `final` flag. -/
def frameStateFinal : Frame → Option (TaskState × Bool)
  | .status _ _ st _ _ fin => some (st, fin)
  | .artifactPass _ _ _ => none

/-- C5 counterexample: a `message/stream` whose generator yields nothing
(and does not throw) closes after the single non-terminal `submitted`
frame, and a generator that yields `completed` and then `working`
produces a frame after the `final` frame, with a non-terminal last
frame — refuting "the last SSE frame emitted always reports a terminal
state, and no frame is emitted after it". -/
theorem streaming_last_frame_not_terminal :
    (handleSendStreamingMessageGen createTaskStore exampleMessage [] false "u-1" "T1").1
      = [Frame.status "task-1" "ctx-1" .submitted none "T1" false] ∧
    terminalStates.contains .submitted = false ∧
    ((handleSendStreamingMessageGen createTaskStore exampleMessage
        [.statusUpdate "" .completed none "T1", .statusUpdate "" .working none "T1"]
        false "u-1" "T1").1).map frameStateFinal
      = [some (.submitted, false), some (.completed, true), some (.working, false)] := by
  exact ⟨rfl, rfl, rfl⟩

/-- C5 amended: on every streaming path the `final` flag of a status
frame is true iff its reported state is terminal; a throwing
`message/stream` handler always ends the stream with a `failed` terminal
frame; when the handler's last yielded update is a terminal status
update the stream ends with that terminal frame; a promise-based
`message/stream` emits exactly `submitted`, `working` and then a final
`completed` (or, on rejection, `failed`) frame; `tasks/resubscribe` on a
terminal task emits exactly one final frame, and on a non-terminal task
emits no frame after the first final one.  (The stream is however not
closed after a terminal frame of a still-yielding generator, and a
generator that stops before a terminal state leaves a non-terminal last
frame — see the counterexample.) -/
theorem streaming_terminality_amended :
    (∀ store message events throws uuid now,
      ∀ f ∈ (handleSendStreamingMessageGen store message events throws uuid now).1,
        statusFinalOk f) ∧
    (∀ store : TaskStore, ∀ message events uuid now,
      ((handleSendStreamingMessageGen store message events true uuid now).1).getLast?
        = some (Frame.status (mkTaskId (store.taskCounter + 1))
            (derivedContextId message uuid) .failed none now true)) ∧
    (∀ store : TaskStore, ∀ message es a st m ts uuid now,
      terminalStates.contains st = true →
      ((handleSendStreamingMessageGen store message
          (es ++ [.statusUpdate a st m ts]) false uuid now).1).getLast?
        = some (Frame.status (mkTaskId (store.taskCounter + 1))
            (derivedContextId message uuid) st m now true)) ∧
    (∀ store : TaskStore, ∀ message m uuid now,
      (handleSendStreamingMessagePromise store message (some m) uuid now).1
        = [Frame.status (mkTaskId (store.taskCounter + 1))
             (derivedContextId message uuid) .submitted none now false,
           Frame.status (mkTaskId (store.taskCounter + 1))
             (derivedContextId message uuid) .working none now false,
           Frame.status (mkTaskId (store.taskCounter + 1))
             (derivedContextId message uuid) .completed (some m) now true]) ∧
    (∀ store : TaskStore, ∀ message uuid now,
      (handleSendStreamingMessagePromise store message none uuid now).1
        = [Frame.status (mkTaskId (store.taskCounter + 1))
             (derivedContextId message uuid) .submitted none now false,
           Frame.status (mkTaskId (store.taskCounter + 1))
             (derivedContextId message uuid) .working none now false,
           Frame.status (mkTaskId (store.taskCounter + 1))
             (derivedContextId message uuid) .failed none now true]) ∧
    (∀ store rawId events now task,
      mapGet store.tasks (jsReplaceFirst rawId "tasks/" "") = some task →
      terminalStates.contains task.state = true →
      handleSubscribeToTask store rawId events now
        = .stream [Frame.status (jsReplaceFirst rawId "tasks/" "")
            (task.contextId.getD (jsReplaceFirst rawId "tasks/" ""))
            task.state none now true]) ∧
    (∀ store rawId events now task,
      mapGet store.tasks (jsReplaceFirst rawId "tasks/" "") = some task →
      terminalStates.contains task.state = false →
      ∃ frames, handleSubscribeToTask store rawId events now = .stream frames ∧
        (∀ f ∈ frames, statusFinalOk f) ∧
        (∀ l1 tid cid st m ts l2,
          frames = l1 ++ Frame.status tid cid st m ts true :: l2 → l2 = [])) := by
  refine ⟨?_, ?_, ?_, ?_, ?_, ?_, ?_⟩
  · intro store message events throws uuid now f hf
    rw [handleSendStreamingMessageGen_frames] at hf
    rcases List.mem_cons.1 hf with h1 | h1
    · subst h1; simp [createA2AStatusEvent, statusFinalOk, terminalStates]
    · rcases List.mem_append.1 h1 with h2 | h2
      · obtain ⟨ev, _, hev⟩ := List.mem_map.1 h2
        exact hev ▸ streamFrameOf_final_ok _ _ _ ev
      · cases throws with
        | true =>
            simp only [if_true] at h2
            rcases List.mem_singleton.1 h2 with h3
            subst h3
            simp [createA2AStatusEvent, statusFinalOk, terminalStates]
        | false => simp at h2
  · intro store message events uuid now
    rw [handleSendStreamingMessageGen_frames]
    simp only [if_true, ← List.cons_append, List.getLast?_concat]
    simp [createA2AStatusEvent]
  · intro store message es a st m ts uuid now hterm
    rw [handleSendStreamingMessageGen_frames]
    simp only [Bool.false_eq_true, if_false, List.append_nil, List.map_append,
      List.map_cons, List.map_nil, ← List.cons_append, List.getLast?_concat]
    have hmem : st ∈ terminalStates := by simpa using hterm
    simp [streamFrameOf, createA2AStatusEvent, hterm, hmem]
  · intro store message m uuid now
    simp [handleSendStreamingMessagePromise, createTask, createA2AStatusEvent]
  · intro store message uuid now
    simp [handleSendStreamingMessagePromise, createTask, createA2AStatusEvent]
  · intro store rawId events now task hget hterm
    have hmem : task.state ∈ terminalStates := by simpa using hterm
    simp only [handleSubscribeToTask]
    rw [hget]
    simp [hterm, hmem, createA2AStatusEvent]
  · intro store rawId events now task hget hterm
    simp only [handleSubscribeToTask]
    rw [hget]
    simp only [hterm, Bool.false_eq_true, if_false]
    refine ⟨_, rfl, ?_, ?_⟩
    · intro f hf
      rcases List.mem_cons.1 hf with h1 | h1
      · subst h1
        simp only [createA2AStatusEvent, statusFinalOk]
        exact hterm.symm
      · exact processSubEvents_final_ok _ _ _ _ f h1
    · intro l1 tid cid st m ts l2 h
      cases l1 with
      | nil =>
          simp only [List.nil_append] at h
          obtain ⟨he, _⟩ := List.cons.inj h
          obtain ⟨_, _, _, _, _, hfin⟩ := Frame.status.inj he
          exact absurd hfin (by decide)
      | cons a1 l1t =>
          simp only [List.cons_append] at h
          exact (processSubEvents_terminal_stops _ _ _ _ l1t tid cid st m ts l2
            (List.cons.inj h).2).2

/-- C5 witness: the amended streaming theorem applied to a generator
ending in `completed` and to a resubscribe on a terminal task. -/
theorem streaming_terminality_amended_witness :
    terminalStates.contains TaskState.completed = true ∧
    ((handleSendStreamingMessageGen createTaskStore exampleMessage
        ([] ++ [.statusUpdate "" .completed none "T1"]) false "u-1" "T1").1).getLast?
      = some (Frame.status "task-1" "ctx-1" .completed none "T1" true) ∧
    mapGet storeWithCompletedTask.tasks (jsReplaceFirst "tasks/task-1" "tasks/" "")
      = some completedTask ∧
    handleSubscribeToTask storeWithCompletedTask "tasks/task-1" [] "T1"
      = .stream [Frame.status "task-1" "ctx-1" .completed none "T1" true] := by
  refine ⟨rfl, ?_, rfl, ?_⟩
  · exact streaming_terminality_amended.2.2.1 createTaskStore exampleMessage []
      "" .completed none "T1" "u-1" "T1" rfl
  · exact streaming_terminality_amended.2.2.2.2.2.1 storeWithCompletedTask
      "tasks/task-1" [] "T1" completedTask rfl rfl

/-! ## Claim C9 -/

/-- C9 counterexample: a run input whose `messages` array ends in an
`ai`-typed message normalizes to an `agent`-role message, not a
user-role one; and a `messages` element whose `content` is a number
makes normalization throw a `TypeError` instead of never rejecting. -/
theorem inputToA2AMessage_counterexample :
    inputToA2AMessageJV
        [("messages", .jarr [.jobj [("type", .jstr "ai"), ("content", .jstr "x")]])]
      = .ok { role := .agent, parts := [.text "x" none] } ∧
    MessageRole.agent ≠ MessageRole.user ∧
    ∃ e, inputToA2AMessageJV
        [("messages", .jarr [.jobj [("type", .jstr "human"), ("content", .jnum 5)]])]
      = .error e := by
  exact ⟨rfl, by decide, ⟨_, rfl⟩⟩

/-- C9 amended: run-input normalization tries the extraction strategies
in order.  A nonempty `messages` array with a truthy last element is
converted with `langGraphToA2AMessage`, whose role is `user` exactly
when the element's `type` is `"human"` (so `ai` maps to `agent`) and
which throws when the element's `content` is neither a string nor an
array; otherwise the string-valued `message`, `content` and `text`
fields, in that order, give a user-role single-text-part message; any
other object falls back to its JSON stringification as user-role text. -/
theorem inputToA2AMessage_amended :
    (∀ input last, messagesDispatch input = some last →
      inputToA2AMessageJV input = langGraphToA2AMessageJV last) ∧
    (∀ m r, langGraphToA2AMessageJV m = .ok r →
      ∃ s, contentToText m = .ok s ∧
        r = { role := if isJStr (jsField m "type") "human" then .user else .agent,
              parts := [.text s none] }) ∧
    (∀ input s, messagesDispatch input = none →
      getStrField input "message" = some s →
      inputToA2AMessageJV input = .ok (userTextMessage s)) ∧
    (∀ input s, messagesDispatch input = none →
      getStrField input "message" = none →
      getStrField input "content" = some s →
      inputToA2AMessageJV input = .ok (userTextMessage s)) ∧
    (∀ input s, messagesDispatch input = none →
      getStrField input "message" = none →
      getStrField input "content" = none →
      getStrField input "text" = some s →
      inputToA2AMessageJV input = .ok (userTextMessage s)) ∧
    (∀ input, messagesDispatch input = none →
      getStrField input "message" = none →
      getStrField input "content" = none →
      getStrField input "text" = none →
      inputToA2AMessageJV input = .ok (userTextMessage (jsonStringify (.jobj input)))) ∧
    (∀ s, (userTextMessage s).role = .user) := by
  refine ⟨?_, ?_, ?_, ?_, ?_, ?_, fun _ => rfl⟩
  · intro input last h
    unfold inputToA2AMessageJV
    rw [h]
  · intro m r hok
    by_cases hn : jsIsNull m = true
    · rw [langGraphToA2AMessageJV, if_pos hn] at hok
      exact absurd hok (by simp)
    · rw [Bool.not_eq_true] at hn
      rw [langGraphToA2AMessageJV, hn] at hok
      simp only [Bool.false_eq_true, if_false] at hok
      cases hct : contentToText m with
      | ok s =>
          rw [hct] at hok
          exact ⟨s, rfl, (Except.ok.inj hok).symm⟩
      | error e =>
          rw [hct] at hok
          exact absurd hok (by simp)
  · intro input s h hm
    unfold inputToA2AMessageJV
    rw [h, hm]
  · intro input s h hm hc
    unfold inputToA2AMessageJV
    rw [h, hm, hc]
  · intro input s h hm hc ht
    unfold inputToA2AMessageJV
    rw [h, hm, hc, ht]
  · intro input h hm hc ht
    unfold inputToA2AMessageJV
    rw [h, hm, hc, ht]

/-- C9 witness: the amended theorem applied to the four "hi" shapes of
the specification. -/
theorem inputToA2AMessage_amended_witness :
    inputToA2AMessageJV [("content", .jstr "hi")] = .ok (userTextMessage "hi") ∧
    inputToA2AMessageJV [("message", .jstr "hi")] = .ok (userTextMessage "hi") ∧
    inputToA2AMessageJV [("text", .jstr "hi")] = .ok (userTextMessage "hi") ∧
    inputToA2AMessageJV [("messages", .jarr [.jobj [("type", .jstr "human"),
        ("content", .jstr "hi")]])]
      = langGraphToA2AMessageJV (.jobj [("type", .jstr "human"),
          ("content", .jstr "hi")]) ∧
    (userTextMessage "hi").role = .user := by
  refine ⟨?_, ?_, ?_, ?_, inputToA2AMessage_amended.2.2.2.2.2.2 "hi"⟩
  · exact inputToA2AMessage_amended.2.2.2.1 [("content", .jstr "hi")] "hi" rfl rfl rfl
  · exact inputToA2AMessage_amended.2.2.1 [("message", .jstr "hi")] "hi" rfl rfl
  · exact inputToA2AMessage_amended.2.2.2.2.1 [("text", .jstr "hi")] "hi" rfl rfl rfl rfl
  · exact inputToA2AMessage_amended.1 [("messages", .jarr [.jobj [("type", .jstr "human"),
      ("content", .jstr "hi")]])] (.jobj [("type", .jstr "human"),
      ("content", .jstr "hi")]) rfl

end AgentKit
